import Mathlib

/-!
Shallow embedding of the authorization and query-bridge layer of the
influxdb repository snapshot: document authorization predicates
(document.go), the task service validator (task/validator.go), the query
bridges (query/bridges.go, query/logging.go) and the HTTP query handler
(http/query_service.go).  Go `(T, error)` returns are modelled with
`Except`, Go machine state (deferred calls, named returns, panics) with
explicit state passing, and each external collaborator with a record of
result-valued fields.
-/

namespace Influx

/-! ## Basic data model -/

abbrev ID := Nat

def ID.valid (i : ID) : Bool := i != 0

inductive Action
  | read
  | write
deriving DecidableEq

structure Resource where
  type : String
  id : Option ID := none
  orgID : Option ID := none
deriving DecidableEq

structure Permission where
  action : Action
  resource : Resource
deriving DecidableEq

def DocumentsResourceType : String := "documents"

def OrgsResourceType : String := "orgs"

def TasksResourceType : String := "tasks"

inductive ErrCode
  | unauthorized
  | invalid
  | notFound
  | internal
deriving DecidableEq

structure Err where
  code : ErrCode
  msg : String
deriving DecidableEq

instance {ε α : Type} [DecidableEq ε] [DecidableEq α] : DecidableEq (Except ε α) := fun a b =>
  match a, b with
  | .ok x, .ok y =>
    if h : x = y then isTrue (by rw [h]) else isFalse (fun hc => h (by cases hc; rfl))
  | .ok _, .error _ => isFalse (fun hc => nomatch hc)
  | .error _, .ok _ => isFalse (fun hc => nomatch hc)
  | .error x, .error y =>
    if h : x = y then isTrue (by rw [h]) else isFalse (fun hc => h (by cases hc; rfl))

/-- Token authorization: an active/inactive status plus an explicit
permission list (the `*Authorization` concrete principal kind). -/
structure Authorization where
  active : Bool
  permissions : List Permission
deriving DecidableEq

def Authorization.IsActive (a : Authorization) : Bool := a.active

/-- Modelled from the spec: the decision engine `Evaluate` of section 4.1
(the body of `Authorization.Allowed` is not under src/).  A permission
satisfies the required one iff the action matches, the resource type
matches, and the permission is unscoped, or org-scoped to the required
org, or ID-scoped to the required ID. -/
def permissionMatches (p required : Permission) : Bool :=
  p.action == required.action && p.resource.type == required.resource.type &&
    ((p.resource.id == none && p.resource.orgID == none) ||
     (p.resource.orgID != none && p.resource.orgID == required.resource.orgID) ||
     (p.resource.id != none && p.resource.id == required.resource.id))

/-- Modelled from the spec: `Authorization.Allowed` (not under src/) is the
decision engine applied to the permission list of the token, for an active
token. -/
def Authorization.Allowed (a : Authorization) (required : Permission) : Bool :=
  a.IsActive && a.permissions.any (fun p => permissionMatches p required)

/-! ## Document index (document.go collaborator) -/

/-- The `DocumentIndex` collaborator, as result-valued fields for each
method of the Go interface. -/
structure DocumentIndex where
  getDocumentsAccessors : ID → Except Err (List ID)
  getAccessorsDocuments : String → ID → Except Err (List ID)
  usersOrgs : ID → Except Err (List ID)
  findOrganizationByName : String → Except Err ID
  isOrgAccessor : ID → ID → Except Err Unit
  addDocumentOwner : ID → String → ID → Except Err Unit

/-- One observable call made against the document index; the embedded
predicates return the list of calls they made, in order. -/
inductive IdxCall
  | getDocumentsAccessors (docID : ID)
  | getAccessorsDocuments (ownerType : String) (ownerID : ID)
  | usersOrgs (userID : ID)
  | findOrganizationByName (n : String)
  | isOrgAccessor (userID orgID : ID)
  | addDocumentOwner (docID : ID) (ownerType : String) (ownerID : ID)
deriving DecidableEq

/-- The per-permission test of the loop body of `TokenAuthorized`
(document.go lines 98-117): read permissions are skipped, then the three
return-nil branches. -/
def tokenDocPermMatch (id : ID) (oids : List ID) (p : Permission) : Bool :=
  p.action != Action.read &&
    ((p.resource.type == DocumentsResourceType && p.resource.id == some id) ||
     (p.resource.type == DocumentsResourceType && p.resource.id == none &&
       p.resource.orgID == none) ||
     (p.resource.type == DocumentsResourceType &&
       (match p.resource.orgID with
        | some o => oids.contains o
        | none => false)))

/-- `TokenAuthorized` (document.go lines 84-127): the create/add-owner
predicate for token principals. -/
def TokenAuthorized (a : Authorization) (id : ID) (idx : DocumentIndex) :
    Except Err Unit × List IdxCall :=
  if a.IsActive = false then
    (.error ⟨.unauthorized, "authorizer cannot access document"⟩, [])
  else
    match idx.getDocumentsAccessors id with
    | .error e => (.error e, [.getDocumentsAccessors id])
    | .ok oids =>
      if a.permissions.any (tokenDocPermMatch id oids) then
        (.ok (), [.getDocumentsAccessors id])
      else
        (.error ⟨.unauthorized, "authorization cannot access document"⟩,
         [.getDocumentsAccessors id])

/-- `TokenAuthorizedWithOrg` (document.go lines 149-182). -/
def TokenAuthorizedWithOrg (a : Authorization) (org : String) (id : ID)
    (idx : DocumentIndex) : Except Err Unit × List IdxCall :=
  if a.IsActive = false then
    (.error ⟨.unauthorized, "authorization cannot add org as document owner"⟩, [])
  else
    match idx.findOrganizationByName org with
    | .error e => (.error e, [.findOrganizationByName org])
    | .ok oid =>
      let p : Permission := ⟨.write, ⟨DocumentsResourceType, none, some oid⟩⟩
      if a.Allowed p = false then
        (.error ⟨.unauthorized, "authorization cannot add org as document owner"⟩,
         [.findOrganizationByName org])
      else
        match idx.addDocumentOwner id "org" oid with
        | .error e =>
          (.error e, [.findOrganizationByName org, .addDocumentOwner id "org" oid])
        | .ok _ =>
          (.ok (), [.findOrganizationByName org, .addDocumentOwner id "org" oid])

/-- The permission loop of `TokenAuthorizedWhere` (document.go lines
283-299): an org-scoped documents permission appends the documents
of that organization, an ID-scoped documents permission appends its ID; `acc` is the
`ids` slice accumulated so far. -/
def tokenWhereLoop (idx : DocumentIndex) (acc : List ID) :
    List Permission → Except Err (List ID) × List IdxCall
  | [] => (.ok acc, [])
  | p :: ps =>
    let first : Except Err (List ID) × List IdxCall :=
      match p.resource.orgID with
      | some o =>
        if p.resource.type == DocumentsResourceType then
          match idx.getAccessorsDocuments "org" o with
          | .error e => (.error e, [.getAccessorsDocuments "org" o])
          | .ok oids => (.ok (acc ++ oids), [.getAccessorsDocuments "org" o])
        else (.ok acc, [])
      | none => (.ok acc, [])
    match first with
    | (.error e, tr) => (.error e, tr)
    | (.ok acc1, tr1) =>
      let acc2 :=
        match p.resource.id with
        | some i => if p.resource.type == DocumentsResourceType then acc1 ++ [i] else acc1
        | none => acc1
      let (r, tr2) := tokenWhereLoop idx acc2 ps
      (r, tr1 ++ tr2)

/-- `TokenAuthorizedWhere` (document.go lines 272-299): the
find-accessible-set predicate for token principals. -/
def TokenAuthorizedWhere (a : Authorization) (idx : DocumentIndex) :
    Except Err (List ID) × List IdxCall :=
  if a.IsActive = false then
    (.error ⟨.unauthorized, "authorizer cannot access documents"⟩, [])
  else
    tokenWhereLoop idx [] a.permissions

/-- The per-org loop of the non-token arm of `AuthorizedWhere`
(document.go lines 258-266). -/
def authorizedWhereOrgLoop (idx : DocumentIndex) (acc : List ID) :
    List ID → Except Err (List ID) × List IdxCall
  | [] => (.ok acc, [])
  | o :: os =>
    match idx.getAccessorsDocuments "org" o with
    | .error e => (.error e, [.getAccessorsDocuments "org" o])
    | .ok dids =>
      let (r, tr) := authorizedWhereOrgLoop idx (acc ++ dids) os
      (r, .getAccessorsDocuments "org" o :: tr)

/-- A principal: either a token authorization (dispatched by the Go type
switch to the `Token*` predicates) or another authorizer kind, of which
only the user ID is consulted. -/
inductive Authorizer
  | token (a : Authorization)
  | user (userID : ID)

/-- `AuthorizedWhere` (document.go lines 239-270): dispatches token
principals to `TokenAuthorizedWhere`; for other principals, the documents owned by the user followed by the documents of each organization the user belongs
to. -/
def AuthorizedWhere (a : Authorizer) (idx : DocumentIndex) :
    Except Err (List ID) × List IdxCall :=
  match a with
  | .token t => TokenAuthorizedWhere t idx
  | .user uid =>
    match idx.getAccessorsDocuments "user" uid with
    | .error e => (.error e, [.getAccessorsDocuments "user" uid])
    | .ok dids =>
      match idx.usersOrgs uid with
      | .error e => (.error e, [.getAccessorsDocuments "user" uid, .usersOrgs uid])
      | .ok orgIDs =>
        let (r, tr) := authorizedWhereOrgLoop idx dids orgIDs
        (r, .getAccessorsDocuments "user" uid :: .usersOrgs uid :: tr)

/-- `TokenAuthorizedWhereID` (document.go lines 332-373); unlike
`TokenAuthorized` its permission loop does not skip read permissions. -/
def TokenAuthorizedWhereID (a : Authorization) (docID : ID) (idx : DocumentIndex) :
    Except Err (List ID) × List IdxCall :=
  if a.IsActive = false then
    (.error ⟨.unauthorized, "authorizer cannot access documents"⟩, [])
  else
    match idx.getDocumentsAccessors docID with
    | .error e => (.error e, [.getDocumentsAccessors docID])
    | .ok oids =>
      if a.permissions.any (fun p =>
          (p.resource.type == DocumentsResourceType && p.resource.id == some docID) ||
          (p.resource.type == DocumentsResourceType && p.resource.id == none &&
            p.resource.orgID == none) ||
          (p.resource.type == DocumentsResourceType &&
            (match p.resource.orgID with
             | some o => oids.contains o
             | none => false))) then
        (.ok [docID], [.getDocumentsAccessors docID])
      else
        (.error ⟨.unauthorized, "authorization cannot access document"⟩,
         [.getDocumentsAccessors docID])

/-! ## Task service validator (task/validator.go) -/

structure Task where
  id : ID
  organizationID : ID
  flux : String
deriving DecidableEq

abbrev Log := Nat

abbrev Run := Nat

/-- The wrapped `platform.TaskService` together with the remaining
collaborators of validator.go: the authorizer of the request context
(`platcontext.GetAuthorizer` plus `Authorizer.Allowed`), the flux compiler
and the pre-authorizer used by `validateBucket`. -/
structure TaskEnv where
  findTaskByID : ID → Except Err Task
  findTasks : Except Err (List Task × Int)
  createTask : Except Err Task
  findLogs : Except Err (List Log × Int)
  findRuns : Except Err (List Run × Int)
  findRunByID : ID → ID → Except Err Run
  cancelRun : ID → ID → Except Err Unit
  retryRun : ID → ID → Except Err Run
  forceRun : ID → Int → Except Err Run
  authorizer : Except Err (Permission → Bool)
  compile : String → Except Err Nat
  preAuthorize : Nat → Except Err Unit

/-- One observable step taken by a validator operation: a delegation to
the wrapped service, a permission check, or a pre-authorization of a
script. -/
inductive TEvent
  | wrappedFindTaskByID (id : ID)
  | wrappedFindTasks
  | wrappedCreateTask
  | wrappedFindLogs
  | wrappedFindRuns
  | wrappedFindRunByID (taskID runID : ID)
  | wrappedCancelRun (taskID runID : ID)
  | wrappedRetryRun (taskID runID : ID)
  | wrappedForceRun (taskID : ID) (scheduledFor : Int)
  | permCheck (p : Permission)
  | preAuth (script : String)
deriving DecidableEq

/-- Modelled from the spec: `platform.NewPermission` (not under src/)
builds an org-scoped permission of the given action and resource type,
failing with an Invalid error when the organization ID is not valid. -/
def NewPermission (action : Action) (rt : String) (orgID : ID) : Except Err Permission :=
  if orgID.valid then .ok ⟨action, ⟨rt, none, some orgID⟩⟩
  else .error ⟨.invalid, "invalid organization id"⟩

/-- Modelled from the spec: `platform.NewPermissionAtID` (not under src/)
builds an ID-scoped permission of the given action and resource type,
failing with an Invalid error when the resource ID is not valid. -/
def NewPermissionAtID (id : ID) (action : Action) (rt : String) (orgID : ID) :
    Except Err Permission :=
  if id.valid then .ok ⟨action, ⟨rt, some id, some orgID⟩⟩
  else .error ⟨.invalid, "invalid resource id"⟩

/-- `validatePermission` (validator.go lines 283-294): fetch the request
authorizer from the context and evaluate the required permission. -/
def validatePermission (env : TaskEnv) (perm : Permission) : Except Err Unit :=
  match env.authorizer with
  | .error e => .error e
  | .ok allowed =>
    if allowed perm then .ok ()
    else .error ⟨.unauthorized, "unauthorized"⟩

/-- `validateBucket` (validator.go lines 296-318): fetch the authorizer,
compile the script (Invalid error on failure), then pre-authorize the
compiled spec (Invalid error on failure). -/
def validateBucket (env : TaskEnv) (script : String) : Except Err Unit :=
  match env.authorizer with
  | .error e => .error e
  | .ok _ =>
    match env.compile script with
    | .error _ => .error ⟨.invalid, "Failed to compile flux script."⟩
    | .ok spec =>
      match env.preAuthorize spec with
      | .error _ => .error ⟨.invalid, "Failed to authorize."⟩
      | .ok _ => .ok ()

namespace taskServiceValidator

/-- `taskServiceValidator.FindTaskByID` (validator.go lines 40-60):
unauthenticated lookup through the wrapped service, then a read-permission
check scoped to the ID and organization of the task. -/
def FindTaskByID (env : TaskEnv) (id : ID) : Except Err Task × List TEvent :=
  match env.findTaskByID id with
  | .error e => (.error e, [.wrappedFindTaskByID id])
  | .ok task =>
    match NewPermissionAtID id .read TasksResourceType task.organizationID with
    | .error e => (.error e, [.wrappedFindTaskByID id])
    | .ok perm =>
      match validatePermission env perm with
      | .error e => (.error e, [.wrappedFindTaskByID id, .permCheck perm])
      | .ok _ => (.ok task, [.wrappedFindTaskByID id, .permCheck perm])

/-- The filtering loop of `FindTasks` (validator.go lines 73-86): skip a
task when its read permission cannot be built or the check fails, keep it
otherwise. -/
def findTasksLoop (env : TaskEnv) : List Task → List Task
  | [] => []
  | t :: ts =>
    match NewPermissionAtID t.id .read TasksResourceType t.organizationID with
    | .error _ => findTasksLoop env ts
    | .ok perm =>
      match validatePermission env perm with
      | .error _ => findTasksLoop env ts
      | .ok _ => t :: findTasksLoop env ts

/-- `taskServiceValidator.FindTasks` (validator.go lines 62-89):
unauthenticated fetch, then filter to the readable tasks, returning the
filtered list and its length. -/
def FindTasks (env : TaskEnv) : Except Err (List Task × Int) × List TEvent :=
  match env.findTasks with
  | .error e => (.error e, [.wrappedFindTasks])
  | .ok (unauthenticatedTasks, _) =>
    let tasks := findTasksLoop env unauthenticatedTasks
    (.ok (tasks, tasks.length), [.wrappedFindTasks])

/-- `taskServiceValidator.CreateTask` (validator.go lines 91-109):
org-scoped write permission check, then pre-authorization of the script,
then delegation. -/
def CreateTask (env : TaskEnv) (t : Task) : Except Err Task × List TEvent :=
  match NewPermission .write TasksResourceType t.organizationID with
  | .error e => (.error e, [])
  | .ok p =>
    match validatePermission env p with
    | .error e => (.error e, [.permCheck p])
    | .ok _ =>
      match validateBucket env t.flux with
      | .error e => (.error e, [.permCheck p, .preAuth t.flux])
      | .ok _ => (env.createTask, [.permCheck p, .preAuth t.flux, .wrappedCreateTask])

/-- `taskServiceValidator.FindLogs` (validator.go lines 159-170): look the
task up through the validator itself (its own `FindTaskByID`), then delegate. -/
def FindLogs (env : TaskEnv) (filterTask : ID) : Except Err (List Log × Int) × List TEvent :=
  match FindTaskByID env filterTask with
  | (.error e, tr) => (.error e, tr)
  | (.ok _, tr) => (env.findLogs, tr ++ [.wrappedFindLogs])

/-- `taskServiceValidator.FindRuns` (validator.go lines 172-193): look the
task up through the validator itself (its own `FindTaskByID`), then a second
read-permission check at the ID of the returned task, then delegate. -/
def FindRuns (env : TaskEnv) (filterTask : ID) : Except Err (List Run × Int) × List TEvent :=
  match FindTaskByID env filterTask with
  | (.error e, tr) => (.error e, tr)
  | (.ok task, tr) =>
    match NewPermissionAtID task.id .read TasksResourceType task.organizationID with
    | .error e => (.error e, tr)
    | .ok perm =>
      match validatePermission env perm with
      | .error e => (.error e, tr ++ [.permCheck perm])
      | .ok _ => (env.findRuns, tr ++ [.permCheck perm, .wrappedFindRuns])

/-- `taskServiceValidator.FindRunByID` (validator.go lines 195-215):
unauthenticated lookup through the wrapped service, then a read-permission
check at the task ID, then delegate. -/
def FindRunByID (env : TaskEnv) (taskID runID : ID) : Except Err Run × List TEvent :=
  match env.findTaskByID taskID with
  | .error e => (.error e, [.wrappedFindTaskByID taskID])
  | .ok task =>
    match NewPermissionAtID taskID .read TasksResourceType task.organizationID with
    | .error e => (.error e, [.wrappedFindTaskByID taskID])
    | .ok p =>
      match validatePermission env p with
      | .error e => (.error e, [.wrappedFindTaskByID taskID, .permCheck p])
      | .ok _ =>
        (env.findRunByID taskID runID,
         [.wrappedFindTaskByID taskID, .permCheck p, .wrappedFindRunByID taskID runID])

/-- `taskServiceValidator.CancelRun` (validator.go lines 217-237):
unauthenticated lookup through the wrapped service, then a
write-permission check at the task ID, then delegate. -/
def CancelRun (env : TaskEnv) (taskID runID : ID) : Except Err Unit × List TEvent :=
  match env.findTaskByID taskID with
  | .error e => (.error e, [.wrappedFindTaskByID taskID])
  | .ok task =>
    match NewPermissionAtID taskID .write TasksResourceType task.organizationID with
    | .error e => (.error e, [.wrappedFindTaskByID taskID])
    | .ok p =>
      match validatePermission env p with
      | .error e => (.error e, [.wrappedFindTaskByID taskID, .permCheck p])
      | .ok _ =>
        (env.cancelRun taskID runID,
         [.wrappedFindTaskByID taskID, .permCheck p, .wrappedCancelRun taskID runID])

/-- `taskServiceValidator.RetryRun` (validator.go lines 239-259):
unauthenticated lookup through the wrapped service, then a
write-permission check at the task ID, then delegate. -/
def RetryRun (env : TaskEnv) (taskID runID : ID) : Except Err Run × List TEvent :=
  match env.findTaskByID taskID with
  | .error e => (.error e, [.wrappedFindTaskByID taskID])
  | .ok task =>
    match NewPermissionAtID taskID .write TasksResourceType task.organizationID with
    | .error e => (.error e, [.wrappedFindTaskByID taskID])
    | .ok p =>
      match validatePermission env p with
      | .error e => (.error e, [.wrappedFindTaskByID taskID, .permCheck p])
      | .ok _ =>
        (env.retryRun taskID runID,
         [.wrappedFindTaskByID taskID, .permCheck p, .wrappedRetryRun taskID runID])

/-- `taskServiceValidator.ForceRun` (validator.go lines 261-281):
unauthenticated lookup through the wrapped service, then a
write-permission check at the task ID, then delegate. -/
def ForceRun (env : TaskEnv) (taskID : ID) (scheduledFor : Int) :
    Except Err Run × List TEvent :=
  match env.findTaskByID taskID with
  | .error e => (.error e, [.wrappedFindTaskByID taskID])
  | .ok task =>
    match NewPermissionAtID taskID .write TasksResourceType task.organizationID with
    | .error e => (.error e, [.wrappedFindTaskByID taskID])
    | .ok p =>
      match validatePermission env p with
      | .error e => (.error e, [.wrappedFindTaskByID taskID, .permCheck p])
      | .ok _ =>
        (env.forceRun taskID scheduledFor,
         [.wrappedFindTaskByID taskID, .permCheck p, .wrappedForceRun taskID scheduledFor])

end taskServiceValidator

/-! ## Go defer/panic machinery

A Go function body is modelled as a final state (holding the named
returns), an optional pending panic value, and the stack of deferred
calls registered before it finished (head = last registered = first to
run).  Each deferred call may read and write the state and, when it calls
`recover`, consume the pending panic. -/

structure DeferCtx (σ : Type) where
  state : σ
  pan : Option String

def runDefers {σ : Type} : List (DeferCtx σ → DeferCtx σ) → DeferCtx σ → DeferCtx σ
  | [], c => c
  | d :: ds, c => runDefers ds (d c)

/-! ## Result iterator and statistics -/

abbrev Statistics := Int

/-- The behaviour of a `flux.ResultIterator` obtained from the inner query
service, as observed by the bridges: the value `Statistics()` yields
before release, the value it yields once `Release()` has run, and the
value of `Err()` after encoding. -/
structure IterBehavior where
  statsBeforeRelease : Statistics
  statsAfterRelease : Statistics
  errAfterEncode : Option Err
deriving DecidableEq

/-- Reading `Statistics()` observes the release state: only after
`Release()` are the finalized statistics visible. -/
def iterStatistics (it : IterBehavior) (released : Bool) : Statistics :=
  if released then it.statsAfterRelease else it.statsBeforeRelease

/-- Outcome of the inner `QueryService.Query` call: a result iterator, an
error, or a panic escaping the call. -/
inductive QueryOutcome
  | ok (it : IterBehavior)
  | err (e : Err)
  | pan (p : String)

/-- Outcome of `encoder.Encode(w, results)`: bytes written and an optional
error, or a panic escaping the call. -/
inductive EncodeOutcome
  | res (n : Int) (e : Option Err)
  | pan (p : String)

/-! ## Logging bridge (query/logging.go) -/

/-- One record handed to `s.QueryLogger.Log` (the fields the embedding
tracks). -/
structure LogRecord where
  organizationID : ID
  responseSize : Int
  statistics : Statistics
  error : Option Err
deriving DecidableEq

/-- Machine state of `LoggingServiceBridge.Query`: the named returns `n`
and `err`, the local `stats`, whether the iterator has been released, and
the records logged so far. -/
structure LogState where
  n : Int
  err : Option Err
  stats : Statistics
  released : Bool
  logs : List LogRecord
deriving DecidableEq

/-- The inputs of one `LoggingServiceBridge.Query` call. -/
structure LogEnv where
  orgID : ID
  queryOutcome : QueryOutcome
  encodeOutcome : EncodeOutcome

/-- The outer deferred closure of logging.go lines 27-41: recover any
panic into `err`, build one log record from the named returns and the
local `stats`, and emit it. -/
def loggingOuterDefer (orgID : ID) (c : DeferCtx LogState) : DeferCtx LogState :=
  let err :=
    match c.pan with
    | some p => some ⟨.internal, "panic: " ++ p⟩
    | none => c.state.err
  let record : LogRecord :=
    { organizationID := orgID
      responseSize := c.state.n
      statistics := c.state.stats
      error := err }
  { state := { c.state with err := err, logs := c.state.logs ++ [record] }, pan := none }

/-- The inner deferred closure of logging.go lines 49-52: release the
iterator, then read its statistics into `stats`. -/
def loggingReleaseDefer (it : IterBehavior) (c : DeferCtx LogState) : DeferCtx LogState :=
  let s1 := { c.state with released := true }
  { state := { s1 with stats := iterStatistics it s1.released }, pan := c.pan }

/-- The body of `LoggingServiceBridge.Query` up to (but not including) the
deferred calls: final state, pending panic, registered defers. -/
def loggingBody (env : LogEnv) :
    LogState × Option String × List (DeferCtx LogState → DeferCtx LogState) :=
  let s0 : LogState := { n := 0, err := none, stats := 0, released := false, logs := [] }
  let defers0 := [loggingOuterDefer env.orgID]
  match env.queryOutcome with
  | .pan p => (s0, some p, defers0)
  | .err e => ({ s0 with err := some e }, none, defers0)
  | .ok it =>
    let defers1 := loggingReleaseDefer it :: defers0
    match env.encodeOutcome with
    | .pan p => (s0, some p, defers1)
    | .res n (some e) => ({ s0 with n := n, err := some e }, none, defers1)
    | .res n none =>
      match it.errAfterEncode with
      | some e => ({ s0 with n := 0, err := some e }, none, defers1)
      | none => ({ s0 with n := n, err := none }, none, defers1)

/-- Result of one `LoggingServiceBridge.Query` call: the returned byte
count and error, the emitted log records, and whether a panic escaped to
the caller. -/
structure LogResult where
  n : Int
  err : Option Err
  logs : List LogRecord
  panicked : Bool
deriving DecidableEq

/-- `LoggingServiceBridge.Query` (logging.go lines 21-65): run the body,
then the deferred calls in last-registered-first order. -/
def loggingQuery (env : LogEnv) : LogResult :=
  let (s, p, ds) := loggingBody env
  let c := runDefers ds ⟨s, p⟩
  { n := c.state.n, err := c.state.err, logs := c.state.logs, panicked := c.pan.isSome }

/-! ## Proxy bridge (query/bridges.go) -/

/-- Observable event on the result iterator inside
`ProxyQueryServiceBridge.Query`. -/
inductive PEvent
  | statisticsRead
  | release
deriving DecidableEq

/-- Machine state of `ProxyQueryServiceBridge.Query`. -/
structure ProxyState where
  n : Int
  err : Option Err
  released : Bool
  events : List PEvent
  trailer : Option Statistics
deriving DecidableEq

/-- The inputs of one `ProxyQueryServiceBridge.Query` call.  The bridge
never calls `results.Err()`; panics are not recovered by it and do not
occur here. -/
structure ProxyEnv where
  queryOutcome : Except Err IterBehavior
  encodeN : Int
  encodeErr : Option Err
  isResponseWriter : Bool

/-- The deferred `results.Release()` of bridges.go line 41. -/
def proxyReleaseDefer (c : DeferCtx ProxyState) : DeferCtx ProxyState :=
  { state := { c.state with released := true, events := c.state.events ++ [.release] }
    pan := c.pan }

/-- The body of `ProxyQueryServiceBridge.Query` (bridges.go lines 33-60):
query, defer release, encode; on encode success against an
`http.ResponseWriter`, marshal `results.Statistics()` into the trailer
header -- the deferred release has not yet run at that point. -/
def proxyBody (env : ProxyEnv) :
    ProxyState × Option String × List (DeferCtx ProxyState → DeferCtx ProxyState) :=
  let s0 : ProxyState := { n := 0, err := none, released := false, events := [], trailer := none }
  match env.queryOutcome with
  | .error e => ({ s0 with err := some e }, none, [])
  | .ok it =>
    let defers := [proxyReleaseDefer]
    match env.encodeErr with
    | some e => ({ s0 with n := env.encodeN, err := some e }, none, defers)
    | none =>
      if env.isResponseWriter then
        let stats := iterStatistics it s0.released
        ({ s0 with
            n := env.encodeN
            events := s0.events ++ [.statisticsRead]
            trailer := some stats },
         none, defers)
      else ({ s0 with n := env.encodeN }, none, defers)

/-- `ProxyQueryServiceBridge.Query`: run the body, then the deferred
calls. -/
def proxyQuery (env : ProxyEnv) : ProxyState :=
  (runDefers (proxyBody env).2.2 ⟨(proxyBody env).1, (proxyBody env).2.1⟩).state

/-! ## HTTP query handler (http/query_service.go) -/

/-- Observable action taken by `QueryHandler.handlePostQuery`. -/
inductive HAction
  | encodeErrorResponse
  | logEncodeFailure
  | setTrailerHeader
  | setCSVHeaders
  | release
  | statisticsRead
  | onFinished
  | logStatsMarshalFailure
  | writeStatsTrailer
deriving DecidableEq

/-- Machine state of `handlePostQuery`. -/
structure HState where
  released : Bool
  events : List HAction
deriving DecidableEq

/-- The inputs of one `handlePostQuery` call. -/
structure HandlerEnv where
  decodeErr : Option Err
  queryOutcome : Except Err IterBehavior
  encodeN : Int
  encodeErr : Option Err
  hasFinishedHandler : Bool
  statsMarshalErr : Option Err

/-- The deferred `results.Release()` of query_service.go line 85. -/
def handlerReleaseDefer (c : DeferCtx HState) : DeferCtx HState :=
  { state := { c.state with released := true, events := c.state.events ++ [.release] }
    pan := c.pan }

/-- The body of `handlePostQuery` (query_service.go lines 69-137): decode
the request, query, defer release, set headers, encode -- on an encode
error, write a structured error response iff zero bytes were written,
otherwise only log -- then release explicitly, read statistics, fire the
finished handler, and marshal the statistics trailer. -/
def handlerBody (env : HandlerEnv) :
    HState × Option String × List (DeferCtx HState → DeferCtx HState) :=
  let s0 : HState := { released := false, events := [] }
  match env.decodeErr with
  | some _ => ({ s0 with events := [HAction.encodeErrorResponse] }, none, [])
  | none =>
    match env.queryOutcome with
    | .error _ => ({ s0 with events := [HAction.encodeErrorResponse] }, none, [])
    | .ok _ =>
      let defers := [handlerReleaseDefer]
      let s1 := { s0 with events := s0.events ++ [HAction.setTrailerHeader, HAction.setCSVHeaders] }
      let s2 :=
        match env.encodeErr with
        | some _ =>
          if env.encodeN = 0 then { s1 with events := s1.events ++ [HAction.encodeErrorResponse] }
          else { s1 with events := s1.events ++ [HAction.logEncodeFailure] }
        | none => s1
      let s3 := { s2 with released := true, events := s2.events ++ [HAction.release] }
      let s4 := { s3 with events := s3.events ++ [HAction.statisticsRead] }
      let s5 :=
        if env.hasFinishedHandler then { s4 with events := s4.events ++ [HAction.onFinished] }
        else s4
      match env.statsMarshalErr with
      | some _ => ({ s5 with events := s5.events ++ [HAction.logStatsMarshalFailure] }, none, defers)
      | none => ({ s5 with events := s5.events ++ [HAction.writeStatsTrailer] }, none, defers)

/-- `QueryHandler.handlePostQuery`: run the body, then the deferred
calls. -/
def handlePostQuery (env : HandlerEnv) : HState :=
  (runDefers (handlerBody env).2.2 ⟨(handlerBody env).1, (handlerBody env).2.1⟩).state

/-! ## Concrete instances used by witnesses and counterexamples -/

/-- A document index for concrete evaluations: user 1 owns document 5,
belongs to organization 2, and organization 2 also owns document 5;
document 1 is owned by organization 2. -/
def idxA : DocumentIndex where
  getDocumentsAccessors := fun d => if d = 1 then .ok [2] else .ok []
  getAccessorsDocuments := fun ot oid =>
    if ot = "user" && oid == 1 then .ok [5]
    else if ot = "org" && oid == 2 then .ok [5]
    else .ok []
  usersOrgs := fun u => if u = 1 then .ok [2] else .ok []
  findOrganizationByName := fun _ => .error ⟨.notFound, "organization name not found"⟩
  isOrgAccessor := fun _ _ => .error ⟨.unauthorized, "user is not org accessor"⟩
  addDocumentOwner := fun _ _ _ => .ok ()

/-- A wrapped task service environment for concrete evaluations: task 1
lives in organization 7 (as do tasks 2..5), and the request authorizer
grants write everywhere but read only on resource IDs at most 3. -/
def taskEnvA : TaskEnv where
  findTaskByID := fun i => if i = 1 then .ok ⟨1, 7, "fluxA"⟩ else .error ⟨.notFound, "task not found"⟩
  findTasks := .ok ([⟨1, 7, "a"⟩, ⟨2, 7, "b"⟩, ⟨3, 7, "c"⟩, ⟨4, 7, "d"⟩, ⟨5, 7, "e"⟩], 5)
  createTask := .ok ⟨1, 7, "fluxA"⟩
  findLogs := .ok ([11], 1)
  findRuns := .ok ([21], 1)
  findRunByID := fun _ _ => .ok 21
  cancelRun := fun _ _ => .ok ()
  retryRun := fun _ _ => .ok 22
  forceRun := fun _ _ => .ok 23
  authorizer := .ok (fun p =>
    match p.action with
    | .write => true
    | .read =>
      match p.resource.id with
      | some i => i ≤ 3
      | none => false)
  compile := fun _ => .ok 0
  preAuthorize := fun _ => .ok ()

/-- A task service environment whose request authorizer denies
everything. -/
def taskEnvDeny : TaskEnv :=
  { taskEnvA with authorizer := .ok (fun _ => false) }

/-! ## C9: inactive tokens are rejected before any consultation -/

/-- C9: for every token-parameterized document predicate
(`TokenAuthorized`, `TokenAuthorizedWithOrg`, `TokenAuthorizedWhere`,
`TokenAuthorizedWhereID`), an inactive authorization yields an
Unauthorized error with an empty index-call trace, uniformly in the
permission list and the index -- so neither the permissions nor the index
are consulted. -/
theorem inactive_token_predicates (a : Authorization) (id docID : ID) (org : String)
    (idx : DocumentIndex) (h : a.IsActive = false) :
    TokenAuthorized a id idx =
      (.error ⟨.unauthorized, "authorizer cannot access document"⟩, []) ∧
    TokenAuthorizedWithOrg a org id idx =
      (.error ⟨.unauthorized, "authorization cannot add org as document owner"⟩, []) ∧
    TokenAuthorizedWhere a idx =
      (.error ⟨.unauthorized, "authorizer cannot access documents"⟩, []) ∧
    TokenAuthorizedWhereID a docID idx =
      (.error ⟨.unauthorized, "authorizer cannot access documents"⟩, []) := by
  refine ⟨?_, ?_, ?_, ?_⟩ <;>
    simp [TokenAuthorized, TokenAuthorizedWithOrg, TokenAuthorizedWhere,
      TokenAuthorizedWhereID, h]

/-- Witness for C9 at a concrete inactive authorization and index. -/
theorem inactive_token_predicates_witness :
    TokenAuthorized ⟨false, [⟨.write, ⟨DocumentsResourceType, none, none⟩⟩]⟩ 1 idxA =
      (.error ⟨.unauthorized, "authorizer cannot access document"⟩, []) ∧
    TokenAuthorizedWithOrg ⟨false, [⟨.write, ⟨DocumentsResourceType, none, none⟩⟩]⟩ "o" 1 idxA =
      (.error ⟨.unauthorized, "authorization cannot add org as document owner"⟩, []) ∧
    TokenAuthorizedWhere ⟨false, [⟨.write, ⟨DocumentsResourceType, none, none⟩⟩]⟩ idxA =
      (.error ⟨.unauthorized, "authorizer cannot access documents"⟩, []) ∧
    TokenAuthorizedWhereID ⟨false, [⟨.write, ⟨DocumentsResourceType, none, none⟩⟩]⟩ 2 idxA =
      (.error ⟨.unauthorized, "authorizer cannot access documents"⟩, []) :=
  inactive_token_predicates ⟨false, [⟨.write, ⟨DocumentsResourceType, none, none⟩⟩]⟩ 1 2 "o"
    idxA rfl

/-! ## C2: CreateTask gates delegation on both checks -/

/-- C2: in `taskServiceValidator.CreateTask`, a failing write-permission
check or a failing script pre-authorization is returned immediately with
the wrapped `CreateTask` never invoked; the wrapped call happens exactly
when both succeed, with the permission check strictly before the
pre-authorization. -/
theorem createTask_gates (env : TaskEnv) (t : Task) (p : Permission)
    (hp : NewPermission .write TasksResourceType t.organizationID = .ok p) :
    (∀ e, validatePermission env p = .error e →
       taskServiceValidator.CreateTask env t = (.error e, [.permCheck p])) ∧
    (∀ e, validatePermission env p = .ok () → validateBucket env t.flux = .error e →
       taskServiceValidator.CreateTask env t = (.error e, [.permCheck p, .preAuth t.flux])) ∧
    (validatePermission env p = .ok () → validateBucket env t.flux = .ok () →
       taskServiceValidator.CreateTask env t =
         (env.createTask, [.permCheck p, .preAuth t.flux, .wrappedCreateTask])) ∧
    (TEvent.wrappedCreateTask ∈ (taskServiceValidator.CreateTask env t).2 →
       validatePermission env p = .ok () ∧ validateBucket env t.flux = .ok ()) := by
  refine ⟨?_, ?_, ?_, ?_⟩
  · intro e hv
    simp [taskServiceValidator.CreateTask, hp, hv]
  · intro e hv hb
    simp [taskServiceValidator.CreateTask, hp, hv, hb]
  · intro hv hb
    simp [taskServiceValidator.CreateTask, hp, hv, hb]
  · intro hmem
    cases hv : validatePermission env p with
    | error e =>
      simp [taskServiceValidator.CreateTask, hp, hv] at hmem
    | ok u =>
      cases u
      cases hb : validateBucket env t.flux with
      | error e =>
        simp [taskServiceValidator.CreateTask, hp, hv, hb] at hmem
      | ok v =>
        cases v
        exact ⟨rfl, rfl⟩

/-- Witness for C2: with an all-denying authorizer the permission check
fails, the validator returns that error and emits no wrapped call. -/
theorem createTask_gates_witness :
    taskServiceValidator.CreateTask taskEnvDeny ⟨1, 7, "fluxA"⟩ =
      (.error ⟨.unauthorized, "unauthorized"⟩,
       [.permCheck ⟨.write, ⟨TasksResourceType, none, some 7⟩⟩]) :=
  (createTask_gates taskEnvDeny ⟨1, 7, "fluxA"⟩
      ⟨.write, ⟨TasksResourceType, none, some 7⟩⟩ rfl).1
    ⟨.unauthorized, "unauthorized"⟩ rfl

/-! ## C3: FindTasks filters to the readable subset -/

/-- The per-task read check of the `FindTasks` filtering loop, as a
boolean predicate. -/
def canReadTask (env : TaskEnv) (t : Task) : Bool :=
  match NewPermissionAtID t.id .read TasksResourceType t.organizationID with
  | .error _ => false
  | .ok perm =>
    match validatePermission env perm with
    | .error _ => false
    | .ok _ => true

theorem findTasksLoop_eq_filter (env : TaskEnv) (ts : List Task) :
    taskServiceValidator.findTasksLoop env ts = ts.filter (canReadTask env) := by
  induction ts with
  | nil => rfl
  | cons t ts ih =>
    rw [List.filter_cons]
    cases hp : NewPermissionAtID t.id .read TasksResourceType t.organizationID with
    | error e =>
      simp [taskServiceValidator.findTasksLoop, canReadTask, hp, ih]
    | ok perm =>
      cases hv : validatePermission env perm with
      | error e =>
        simp [taskServiceValidator.findTasksLoop, canReadTask, hp, hv, ih]
      | ok u =>
        simp [taskServiceValidator.findTasksLoop, canReadTask, hp, hv, ih]

/-- C3: `taskServiceValidator.FindTasks` fetches the unauthenticated list
from the wrapped service (the only wrapped call in its trace), returns
exactly the order-preserving filtered subset of tasks whose read check
succeeds, and returns the length of that subset as the count. -/
theorem findTasks_filters_readable (env : TaskEnv) (uts : List Task) (c : Int)
    (h : env.findTasks = .ok (uts, c)) :
    taskServiceValidator.FindTasks env =
      (.ok (uts.filter (canReadTask env), ((uts.filter (canReadTask env)).length : Int)),
       [.wrappedFindTasks]) := by
  simp [taskServiceValidator.FindTasks, h, findTasksLoop_eq_filter]

/-- Witness for C3: five unauthenticated tasks of which the authorizer can
read exactly three yield those three tasks, in order, with count 3. -/
theorem findTasks_filters_readable_witness :
    taskServiceValidator.FindTasks taskEnvA =
      (.ok ([⟨1, 7, "a"⟩, ⟨2, 7, "b"⟩, ⟨3, 7, "c"⟩], 3), [.wrappedFindTasks]) := by
  rw [findTasks_filters_readable taskEnvA
    [⟨1, 7, "a"⟩, ⟨2, 7, "b"⟩, ⟨3, 7, "c"⟩, ⟨4, 7, "d"⟩, ⟨5, 7, "e"⟩] 5 rfl]
  decide

/-! ## C4: which operations re-enter FindTaskByID on the validator -/

/-- A task service environment whose request authorizer grants write but
never read, so the `FindTaskByID` of the validator itself (task-read) always
fails. -/
def taskEnvWriteOnly : TaskEnv :=
  { taskEnvA with
      authorizer := .ok (fun p =>
        match p.action with
        | .write => true
        | .read => false) }

/-- Counterexample to C4: under a write-only authorizer the own
`FindTaskByID` of the validator rejects task 1 (task-read denied), yet `CancelRun`
still delegates to the wrapped service -- its trace re-enters the wrapped,
unauthenticated lookup and checks only the write permission, so cancel
does not require task-read authorization. -/
theorem cancelRun_without_task_read :
    (taskServiceValidator.FindTaskByID taskEnvWriteOnly 1).1 =
      .error ⟨.unauthorized, "unauthorized"⟩ ∧
    taskServiceValidator.CancelRun taskEnvWriteOnly 1 9 =
      (.ok (),
       [.wrappedFindTaskByID 1, .permCheck ⟨.write, ⟨TasksResourceType, some 1, some 7⟩⟩,
        .wrappedCancelRun 1 9]) := by
  constructor
  · decide
  · decide

/-- C4 (amended): `FindLogs` and `FindRuns` delegate exactly when the
own `FindTaskByID` of the validator admits the task (`FindRuns` adding a second
read check at the ID of the returned task); `FindRunByID`, `CancelRun`,
`RetryRun` and `ForceRun` instead perform an unauthenticated lookup
through the wrapped service followed by one operation-specific permission
check -- read for `FindRunByID`, write for the other three -- with no
separate task-read requirement. -/
theorem run_log_ops_gating (env : TaskEnv) (tid rid : ID) (sf : Int) :
    (TEvent.wrappedFindLogs ∈ (taskServiceValidator.FindLogs env tid).2 ↔
       ∃ t, (taskServiceValidator.FindTaskByID env tid).1 = .ok t) ∧
    (TEvent.wrappedFindRuns ∈ (taskServiceValidator.FindRuns env tid).2 ↔
       ∃ t p, (taskServiceValidator.FindTaskByID env tid).1 = .ok t ∧
         NewPermissionAtID t.id .read TasksResourceType t.organizationID = .ok p ∧
         validatePermission env p = .ok ()) ∧
    (TEvent.wrappedFindRunByID tid rid ∈ (taskServiceValidator.FindRunByID env tid rid).2 ↔
       ∃ t p, env.findTaskByID tid = .ok t ∧
         NewPermissionAtID tid .read TasksResourceType t.organizationID = .ok p ∧
         validatePermission env p = .ok ()) ∧
    (TEvent.wrappedCancelRun tid rid ∈ (taskServiceValidator.CancelRun env tid rid).2 ↔
       ∃ t p, env.findTaskByID tid = .ok t ∧
         NewPermissionAtID tid .write TasksResourceType t.organizationID = .ok p ∧
         validatePermission env p = .ok ()) ∧
    (TEvent.wrappedRetryRun tid rid ∈ (taskServiceValidator.RetryRun env tid rid).2 ↔
       ∃ t p, env.findTaskByID tid = .ok t ∧
         NewPermissionAtID tid .write TasksResourceType t.organizationID = .ok p ∧
         validatePermission env p = .ok ()) ∧
    (TEvent.wrappedForceRun tid sf ∈ (taskServiceValidator.ForceRun env tid sf).2 ↔
       ∃ t p, env.findTaskByID tid = .ok t ∧
         NewPermissionAtID tid .write TasksResourceType t.organizationID = .ok p ∧
         validatePermission env p = .ok ()) := by
  refine ⟨?_, ?_, ?_, ?_, ?_, ?_⟩
  · cases hf : env.findTaskByID tid with
    | error e => simp [taskServiceValidator.FindLogs, taskServiceValidator.FindTaskByID, hf]
    | ok task =>
      cases hp : NewPermissionAtID tid .read TasksResourceType task.organizationID with
      | error e =>
        simp [taskServiceValidator.FindLogs, taskServiceValidator.FindTaskByID, hf, hp]
      | ok perm =>
        cases hv : validatePermission env perm with
        | error e =>
          simp [taskServiceValidator.FindLogs, taskServiceValidator.FindTaskByID, hf, hp, hv]
        | ok u =>
          cases u
          simp [taskServiceValidator.FindLogs, taskServiceValidator.FindTaskByID, hf, hp, hv]
  · cases hf : env.findTaskByID tid with
    | error e =>
      simp [taskServiceValidator.FindRuns, taskServiceValidator.FindTaskByID, hf]
    | ok task =>
      cases hp : NewPermissionAtID tid .read TasksResourceType task.organizationID with
      | error e =>
        simp [taskServiceValidator.FindRuns, taskServiceValidator.FindTaskByID, hf, hp]
      | ok perm =>
        cases hv : validatePermission env perm with
        | error e =>
          simp [taskServiceValidator.FindRuns, taskServiceValidator.FindTaskByID, hf, hp, hv]
        | ok u =>
          cases u
          cases hp2 : NewPermissionAtID task.id .read TasksResourceType task.organizationID with
          | error e =>
            simp [taskServiceValidator.FindRuns, taskServiceValidator.FindTaskByID,
              hf, hp, hv, hp2]
          | ok perm2 =>
            cases hv2 : validatePermission env perm2 with
            | error e =>
              simp [taskServiceValidator.FindRuns, taskServiceValidator.FindTaskByID,
                hf, hp, hv, hp2, hv2]
            | ok u2 =>
              cases u2
              simp [taskServiceValidator.FindRuns, taskServiceValidator.FindTaskByID,
                hf, hp, hv, hp2, hv2]
  · cases hf : env.findTaskByID tid with
    | error e => simp [taskServiceValidator.FindRunByID, hf]
    | ok task =>
      cases hp : NewPermissionAtID tid .read TasksResourceType task.organizationID with
      | error e => simp [taskServiceValidator.FindRunByID, hf, hp]
      | ok perm =>
        cases hv : validatePermission env perm with
        | error e => simp [taskServiceValidator.FindRunByID, hf, hp, hv]
        | ok u =>
          cases u
          simp [taskServiceValidator.FindRunByID, hf, hp, hv]
  · cases hf : env.findTaskByID tid with
    | error e => simp [taskServiceValidator.CancelRun, hf]
    | ok task =>
      cases hp : NewPermissionAtID tid .write TasksResourceType task.organizationID with
      | error e => simp [taskServiceValidator.CancelRun, hf, hp]
      | ok perm =>
        cases hv : validatePermission env perm with
        | error e => simp [taskServiceValidator.CancelRun, hf, hp, hv]
        | ok u =>
          cases u
          simp [taskServiceValidator.CancelRun, hf, hp, hv]
  · cases hf : env.findTaskByID tid with
    | error e => simp [taskServiceValidator.RetryRun, hf]
    | ok task =>
      cases hp : NewPermissionAtID tid .write TasksResourceType task.organizationID with
      | error e => simp [taskServiceValidator.RetryRun, hf, hp]
      | ok perm =>
        cases hv : validatePermission env perm with
        | error e => simp [taskServiceValidator.RetryRun, hf, hp, hv]
        | ok u =>
          cases u
          simp [taskServiceValidator.RetryRun, hf, hp, hv]
  · cases hf : env.findTaskByID tid with
    | error e => simp [taskServiceValidator.ForceRun, hf]
    | ok task =>
      cases hp : NewPermissionAtID tid .write TasksResourceType task.organizationID with
      | error e => simp [taskServiceValidator.ForceRun, hf, hp]
      | ok perm =>
        cases hv : validatePermission env perm with
        | error e => simp [taskServiceValidator.ForceRun, hf, hp, hv]
        | ok u =>
          cases u
          simp [taskServiceValidator.ForceRun, hf, hp, hv]

/-- Witness for the amended C4 theorem: under `taskEnvWriteOnly` the
write-gated `CancelRun` delegates while the read-gated `FindRunByID` does
not. -/
theorem run_log_ops_gating_witness :
    TEvent.wrappedCancelRun 1 9 ∈ (taskServiceValidator.CancelRun taskEnvWriteOnly 1 9).2 ∧
    TEvent.wrappedFindRunByID 1 9 ∉
      (taskServiceValidator.FindRunByID taskEnvWriteOnly 1 9).2 := by
  constructor
  · exact (run_log_ops_gating taskEnvWriteOnly 1 9 0).2.2.2.1.mpr
      ⟨⟨1, 7, "fluxA"⟩, ⟨.write, ⟨TasksResourceType, some 1, some 7⟩⟩, rfl, rfl, rfl⟩
  · intro hmem
    obtain ⟨t, p, hf, hp, hv⟩ := (run_log_ops_gating taskEnvWriteOnly 1 9 0).2.2.1.mp hmem
    have ht : t = ⟨1, 7, "fluxA"⟩ := by
      have := hf
      simp [taskEnvWriteOnly, taskEnvA] at this
      exact this.symm
    subst ht
    have hpv : p = ⟨.read, ⟨TasksResourceType, some 1, some 7⟩⟩ := by
      have := hp
      simp [NewPermissionAtID, ID.valid] at this
      exact this.symm
    subst hpv
    simp [validatePermission, taskEnvWriteOnly, taskEnvA] at hv

/-! ## C5, C10: the logging bridge -/

/-- C5: `LoggingServiceBridge.Query` emits exactly one log record on every
exit path and never lets a panic escape to the caller; an inner panic
(from the query call or the encoder) surfaces as a non-nil returned error;
on the success path the single record carries a nil error and the
statistics read after `Release()`. -/
theorem loggingQuery_single_record (env : LogEnv) :
    (loggingQuery env).logs.length = 1 ∧
    (loggingQuery env).panicked = false ∧
    (∀ p, env.queryOutcome = QueryOutcome.pan p →
       (loggingQuery env).err = some ⟨.internal, "panic: " ++ p⟩) ∧
    (∀ it p, env.queryOutcome = QueryOutcome.ok it →
       env.encodeOutcome = EncodeOutcome.pan p →
       (loggingQuery env).err = some ⟨.internal, "panic: " ++ p⟩) ∧
    (∀ it n, env.queryOutcome = QueryOutcome.ok it →
       env.encodeOutcome = EncodeOutcome.res n none →
       it.errAfterEncode = none →
       (loggingQuery env).err = none ∧
       (loggingQuery env).logs = [⟨env.orgID, n, it.statsAfterRelease, none⟩]) := by
  obtain ⟨orgID, qo, eo⟩ := env
  cases qo with
  | pan p =>
    simp [loggingQuery, loggingBody, runDefers, loggingOuterDefer]
  | err e =>
    simp [loggingQuery, loggingBody, runDefers, loggingOuterDefer]
  | ok it =>
    cases eo with
    | pan p =>
      simp [loggingQuery, loggingBody, runDefers, loggingOuterDefer, loggingReleaseDefer,
        iterStatistics]
    | res n oe =>
      cases oe with
      | some e =>
        simp [loggingQuery, loggingBody, runDefers, loggingOuterDefer, loggingReleaseDefer,
          iterStatistics]
      | none =>
        cases hE : it.errAfterEncode with
        | some e =>
          simp [loggingQuery, loggingBody, runDefers, loggingOuterDefer, loggingReleaseDefer,
            iterStatistics, hE]
        | none =>
          simp [loggingQuery, loggingBody, runDefers, loggingOuterDefer, loggingReleaseDefer,
            iterStatistics, hE]

/-- Witness for C5 at a concrete success-path call. -/
theorem loggingQuery_single_record_witness :
    (loggingQuery ⟨3, .ok ⟨0, 7, none⟩, .res 5 none⟩).err = none ∧
    (loggingQuery ⟨3, .ok ⟨0, 7, none⟩, .res 5 none⟩).logs = [⟨3, 5, 7, none⟩] ∧
    (loggingQuery ⟨3, .ok ⟨0, 7, none⟩, .res 5 none⟩).panicked = false :=
  have h := loggingQuery_single_record ⟨3, .ok ⟨0, 7, none⟩, .res 5 none⟩
  have hs := h.2.2.2.2 ⟨0, 7, none⟩ 5 rfl rfl rfl
  ⟨hs.1, hs.2, h.2.1⟩

/-- C10: when encoding succeeds but the iterator then reports a non-nil
`Err()`, `LoggingServiceBridge.Query` returns 0 as the byte count and the
ResponseSize of the emitted record is 0, whatever positive count the encoder
had reported. -/
theorem loggingQuery_iterator_error_zeroes_count (env : LogEnv) (it : IterBehavior)
    (n : Int) (e : Err) (hq : env.queryOutcome = QueryOutcome.ok it)
    (he : env.encodeOutcome = EncodeOutcome.res n none)
    (hE : it.errAfterEncode = some e) :
    (loggingQuery env).n = 0 ∧
    (loggingQuery env).err = some e ∧
    (loggingQuery env).logs = [⟨env.orgID, 0, it.statsAfterRelease, some e⟩] := by
  obtain ⟨orgID, qo, eo⟩ := env
  cases hq
  cases he
  simp [loggingQuery, loggingBody, runDefers, loggingOuterDefer, loggingReleaseDefer,
    iterStatistics, hE]

/-- Witness for C10: the encoder reports 42 bytes written, yet the
returned count and the logged ResponseSize are 0. -/
theorem loggingQuery_iterator_error_zeroes_count_witness :
    (loggingQuery ⟨3, .ok ⟨0, 7, some ⟨.internal, "iterator failed"⟩⟩, .res 42 none⟩).n = 0 ∧
    (loggingQuery ⟨3, .ok ⟨0, 7, some ⟨.internal, "iterator failed"⟩⟩, .res 42 none⟩).err =
      some ⟨.internal, "iterator failed"⟩ ∧
    (loggingQuery ⟨3, .ok ⟨0, 7, some ⟨.internal, "iterator failed"⟩⟩, .res 42 none⟩).logs =
      [⟨3, 0, 7, some ⟨.internal, "iterator failed"⟩⟩] :=
  loggingQuery_iterator_error_zeroes_count
    ⟨3, .ok ⟨0, 7, some ⟨.internal, "iterator failed"⟩⟩, .res 42 none⟩
    ⟨0, 7, some ⟨.internal, "iterator failed"⟩⟩ 42 ⟨.internal, "iterator failed"⟩ rfl rfl rfl

/-! ## C1: the proxy bridge reads statistics before release -/

/-- A successful `ProxyQueryServiceBridge.Query` execution against an
`http.ResponseWriter`: the iterator reports statistics 0 before release
and 7 after release, and the encoder writes 5 bytes without error. -/
def proxyEnvA : ProxyEnv :=
  { queryOutcome := .ok ⟨0, 7, none⟩
    encodeN := 5
    encodeErr := none
    isResponseWriter := true }

/-- C1 is violated by the code: on this successful execution the bridge
reads `Statistics()` (and serializes the trailer from the pre-release
value 0, not the finalized 7) strictly before the deferred `Release()`
runs -- the event order is statistics-read first, release second. -/
theorem proxyQuery_statistics_read_before_release :
    (proxyQuery proxyEnvA).events = [.statisticsRead, .release] ∧
    (proxyQuery proxyEnvA).trailer = some 0 ∧
    (proxyQuery proxyEnvA).n = 5 ∧
    (proxyQuery proxyEnvA).err = none := by
  refine ⟨?_, ?_, ?_, ?_⟩ <;> rfl

/-! ## C7: the create/add-owner predicate for token principals -/

theorem tokenDocPermMatch_iff (id : ID) (oids : List ID) (p : Permission) :
    tokenDocPermMatch id oids p = true ↔
      p.action ≠ Action.read ∧ p.resource.type = DocumentsResourceType ∧
        (p.resource.id = some id ∨ (p.resource.id = none ∧ p.resource.orgID = none) ∨
         ∃ o, p.resource.orgID = some o ∧ o ∈ oids) := by
  cases ho : p.resource.orgID with
  | none =>
    simp [tokenDocPermMatch, ho, List.elem_iff, and_or_left]
  | some o =>
    simp [tokenDocPermMatch, ho, List.elem_iff, List.contains, and_or_left]

/-- C7: for an active token principal whose document-accessor lookup
succeeds, `TokenAuthorized` accepts iff some permission is non-read, is on
the documents resource type, and either names the exact ID of the document, or
is fully unscoped (no ID and no org ID), or is org-scoped to an
organization owning the document; read permissions never satisfy it. -/
theorem tokenAuthorized_succeeds_iff (a : Authorization) (id : ID) (idx : DocumentIndex)
    (oids : List ID) (hact : a.IsActive = true)
    (hidx : idx.getDocumentsAccessors id = .ok oids) :
    (TokenAuthorized a id idx).1 = .ok () ↔
      ∃ p ∈ a.permissions, p.action ≠ Action.read ∧
        p.resource.type = DocumentsResourceType ∧
        (p.resource.id = some id ∨ (p.resource.id = none ∧ p.resource.orgID = none) ∨
         ∃ o, p.resource.orgID = some o ∧ o ∈ oids) := by
  by_cases hany : a.permissions.any (tokenDocPermMatch id oids)
  · rw [List.any_eq_true] at hany
    simp only [TokenAuthorized, hact, Bool.true_eq_false, if_false, hidx]
    rw [if_pos (List.any_eq_true.mpr hany)]
    simp only [true_iff]
    obtain ⟨p, hmem, hmatch⟩ := hany
    exact ⟨p, hmem, (tokenDocPermMatch_iff id oids p).mp hmatch⟩
  · simp only [TokenAuthorized, hact, Bool.true_eq_false, if_false, hidx]
    rw [if_neg hany]
    simp only [Prod.fst]
    constructor
    · intro h
      exact absurd h (by simp)
    · intro ⟨p, hmem, hprop⟩
      exact absurd (List.any_eq_true.mpr
        ⟨p, hmem, (tokenDocPermMatch_iff id oids p).mpr hprop⟩) hany

/-- Witness for C7: an active token holding a write permission org-scoped
to organization 2, which owns document 1, is accepted. -/
theorem tokenAuthorized_succeeds_iff_witness :
    (TokenAuthorized ⟨true, [⟨.write, ⟨DocumentsResourceType, none, some 2⟩⟩]⟩ 1 idxA).1 =
      .ok () :=
  (tokenAuthorized_succeeds_iff ⟨true, [⟨.write, ⟨DocumentsResourceType, none, some 2⟩⟩]⟩
      1 idxA [2] rfl rfl).mpr
    ⟨⟨.write, ⟨DocumentsResourceType, none, some 2⟩⟩, by simp, by simp, rfl,
      Or.inr (Or.inr ⟨2, rfl, by simp⟩)⟩

/-! ## C6: the find-accessible-set predicates -/

/-- Counterexample to C6: in `idxA` user 1 directly owns document 5 and
belongs to organization 2 which also owns document 5, so the deduplicated
accessible set would be `[5]`; the non-token arm of `AuthorizedWhere`
instead returns `[5, 5]` (document 5 appears twice), and a token principal
with an empty permission list gets `[]` even though it may own documents
in the index. -/
theorem authorizedWhere_duplicates :
    (AuthorizedWhere (.user 1) idxA).1 = .ok [5, 5] ∧
    (AuthorizedWhere (.token ⟨true, []⟩) idxA).1 = .ok [] := by
  constructor
  · rfl
  · rfl

/-- The list contributed by one token permission in the loop of
`TokenAuthorizedWhere`, given `g` as the per-organization document
lookup. -/
def tokenWhereSpec (g : ID → List ID) : List Permission → List ID
  | [] => []
  | p :: ps =>
    ((if p.resource.type == DocumentsResourceType then
        (match p.resource.orgID with
         | some o => g o
         | none => [])
      else []) ++
     (if p.resource.type == DocumentsResourceType then
        (match p.resource.id with
         | some i => [i]
         | none => [])
      else [])) ++ tokenWhereSpec g ps

theorem authorizedWhereOrgLoop_ok (idx : DocumentIndex) (f : ID → List ID) :
    ∀ (os : List ID) (acc : List ID),
      (∀ o ∈ os, idx.getAccessorsDocuments "org" o = .ok (f o)) →
      (authorizedWhereOrgLoop idx acc os).1 = .ok (acc ++ os.flatMap f) := by
  intro os
  induction os with
  | nil =>
    intro acc _
    simp [authorizedWhereOrgLoop]
  | cons o os ih =>
    intro acc h
    have ho : idx.getAccessorsDocuments "org" o = .ok (f o) := h o (by simp)
    have hrest : ∀ x ∈ os, idx.getAccessorsDocuments "org" x = .ok (f x) :=
      fun x hx => h x (by simp [hx])
    simp only [authorizedWhereOrgLoop, ho]
    rw [show (authorizedWhereOrgLoop idx (acc ++ f o) os) =
        ((authorizedWhereOrgLoop idx (acc ++ f o) os).1,
         (authorizedWhereOrgLoop idx (acc ++ f o) os).2) from rfl]
    simp only [ih (acc ++ f o) hrest]
    simp

theorem tokenWhereLoop_ok (idx : DocumentIndex) (g : ID → List ID) :
    ∀ (ps : List Permission) (acc : List ID),
      (∀ p ∈ ps, ∀ o, p.resource.type = DocumentsResourceType →
         p.resource.orgID = some o → idx.getAccessorsDocuments "org" o = .ok (g o)) →
      (tokenWhereLoop idx acc ps).1 = .ok (acc ++ tokenWhereSpec g ps) := by
  intro ps
  induction ps with
  | nil =>
    intro acc _
    simp [tokenWhereLoop, tokenWhereSpec]
  | cons p ps ih =>
    intro acc h
    have hrest : ∀ q ∈ ps, ∀ o, q.resource.type = DocumentsResourceType →
        q.resource.orgID = some o → idx.getAccessorsDocuments "org" o = .ok (g o) :=
      fun q hq => h q (by simp [hq])
    cases ho : p.resource.orgID with
    | none =>
      cases hi : p.resource.id with
      | none =>
        simp only [tokenWhereLoop, ho, hi, tokenWhereSpec]
        rw [show (tokenWhereLoop idx acc ps) =
            ((tokenWhereLoop idx acc ps).1, (tokenWhereLoop idx acc ps).2) from rfl]
        simp only [ih acc hrest]
        simp
      | some i =>
        by_cases ht : p.resource.type = DocumentsResourceType
        · simp only [tokenWhereLoop, ho, hi, tokenWhereSpec, ht, beq_self_eq_true, if_pos]
          rw [show (tokenWhereLoop idx (acc ++ [i]) ps) =
              ((tokenWhereLoop idx (acc ++ [i]) ps).1,
               (tokenWhereLoop idx (acc ++ [i]) ps).2) from rfl]
          simp only [ih (acc ++ [i]) hrest]
          simp
        · have hne : (p.resource.type == DocumentsResourceType) = false := by
            simp [ht]
          simp only [tokenWhereLoop, ho, hi, tokenWhereSpec, hne, if_false, Bool.false_eq_true]
          rw [show (tokenWhereLoop idx acc ps) =
              ((tokenWhereLoop idx acc ps).1, (tokenWhereLoop idx acc ps).2) from rfl]
          simp only [ih acc hrest]
          simp
    | some o =>
      by_cases ht : p.resource.type = DocumentsResourceType
      · have hg : idx.getAccessorsDocuments "org" o = .ok (g o) := h p (by simp) o ht ho
        cases hi : p.resource.id with
        | none =>
          simp only [tokenWhereLoop, ho, hi, tokenWhereSpec, ht, beq_self_eq_true, if_pos, hg]
          rw [show (tokenWhereLoop idx (acc ++ g o) ps) =
              ((tokenWhereLoop idx (acc ++ g o) ps).1,
               (tokenWhereLoop idx (acc ++ g o) ps).2) from rfl]
          simp only [ih (acc ++ g o) hrest]
          simp
        | some i =>
          simp only [tokenWhereLoop, ho, hi, tokenWhereSpec, ht, beq_self_eq_true, if_pos, hg]
          rw [show (tokenWhereLoop idx (acc ++ g o ++ [i]) ps) =
              ((tokenWhereLoop idx (acc ++ g o ++ [i]) ps).1,
               (tokenWhereLoop idx (acc ++ g o ++ [i]) ps).2) from rfl]
          simp only [ih (acc ++ g o ++ [i]) hrest]
          simp
      · have hne : (p.resource.type == DocumentsResourceType) = false := by
          simp [ht]
        cases hi : p.resource.id with
        | none =>
          simp only [tokenWhereLoop, ho, hi, tokenWhereSpec, hne, if_false, Bool.false_eq_true]
          rw [show (tokenWhereLoop idx acc ps) =
              ((tokenWhereLoop idx acc ps).1, (tokenWhereLoop idx acc ps).2) from rfl]
          simp only [ih acc hrest]
          simp
        | some i =>
          simp only [tokenWhereLoop, ho, hi, tokenWhereSpec, hne, if_false, Bool.false_eq_true]
          rw [show (tokenWhereLoop idx acc ps) =
              ((tokenWhereLoop idx acc ps).1, (tokenWhereLoop idx acc ps).2) from rfl]
          simp only [ih acc hrest]
          simp

/-- C6 (amended): for non-token principals, `AuthorizedWhere` returns the
directly-owned document IDs concatenated with the documents of each
organization the principal belongs to, in that order and without
deduplication; token principals are dispatched to `TokenAuthorizedWhere`,
which derives the list from the permission set instead of the ownership
graph (each org-scoped documents permission contributes that
documents of that organization, each ID-scoped one its ID), also without
deduplication. -/
theorem authorizedWhere_concatenation (idx : DocumentIndex) :
    (∀ (uid : ID) (ds os : List ID) (f : ID → List ID),
       idx.getAccessorsDocuments "user" uid = .ok ds →
       idx.usersOrgs uid = .ok os →
       (∀ o ∈ os, idx.getAccessorsDocuments "org" o = .ok (f o)) →
       (AuthorizedWhere (.user uid) idx).1 = .ok (ds ++ os.flatMap f)) ∧
    (∀ (a : Authorization) (g : ID → List ID), a.IsActive = true →
       (∀ p ∈ a.permissions, ∀ o, p.resource.type = DocumentsResourceType →
          p.resource.orgID = some o → idx.getAccessorsDocuments "org" o = .ok (g o)) →
       (AuthorizedWhere (.token a) idx).1 = .ok (tokenWhereSpec g a.permissions)) := by
  constructor
  · intro uid ds os f hu ho hf
    simp only [AuthorizedWhere, hu, ho]
    rw [show (authorizedWhereOrgLoop idx ds os) =
        ((authorizedWhereOrgLoop idx ds os).1, (authorizedWhereOrgLoop idx ds os).2) from rfl]
    simp [authorizedWhereOrgLoop_ok idx f os ds hf]
  · intro a g hact hg
    simp only [AuthorizedWhere, TokenAuthorizedWhere, hact, Bool.true_eq_false, if_false]
    rw [show (tokenWhereLoop idx [] a.permissions) =
        ((tokenWhereLoop idx [] a.permissions).1,
         (tokenWhereLoop idx [] a.permissions).2) from rfl]
    simp [tokenWhereLoop_ok idx g a.permissions [] hg]

/-- Witness for the amended C6 theorem at `idxA`: both arms produce their
concatenations (with the duplicate visible in the non-token arm). -/
theorem authorizedWhere_concatenation_witness :
    (AuthorizedWhere (.user 1) idxA).1 = .ok ([5] ++ [2].flatMap (fun _ => [5])) ∧
    (AuthorizedWhere
        (.token ⟨true, [⟨.write, ⟨DocumentsResourceType, some 9, some 2⟩⟩]⟩) idxA).1 =
      .ok (tokenWhereSpec (fun _ => [5])
        [⟨.write, ⟨DocumentsResourceType, some 9, some 2⟩⟩]) :=
  ⟨(authorizedWhere_concatenation idxA).1 1 [5] [2] (fun _ => [5]) rfl rfl
      (by intro o ho; simp at ho; subst ho; rfl),
   (authorizedWhere_concatenation idxA).2 ⟨true, [⟨.write, ⟨DocumentsResourceType, some 9, some 2⟩⟩]⟩
      (fun _ => [5]) rfl
      (by intro p hp o ht ho; simp at hp; subst hp; simp at ho; subst ho; rfl)⟩

/-! ## C8: handler behaviour on streaming encode errors -/

/-- C8: in the streaming path of `handlePostQuery`, an encode error with zero
bytes written is turned into a structured error response (and not merely
logged); an encode error after at least one byte is only logged and no
error response is written over the body. -/
theorem handler_encode_error_paths (env : HandlerEnv) (it : IterBehavior) (e : Err)
    (hd : env.decodeErr = none) (hq : env.queryOutcome = .ok it)
    (he : env.encodeErr = some e) :
    (env.encodeN = 0 →
       HAction.encodeErrorResponse ∈ (handlePostQuery env).events ∧
       HAction.logEncodeFailure ∉ (handlePostQuery env).events) ∧
    (env.encodeN ≠ 0 →
       HAction.logEncodeFailure ∈ (handlePostQuery env).events ∧
       HAction.encodeErrorResponse ∉ (handlePostQuery env).events) := by
  obtain ⟨de, qo, en, ee, hfin, sm⟩ := env
  simp only at hd hq he
  subst hd
  subst hq
  subst he
  constructor
  · intro h0
    simp only at h0
    subst h0
    cases hfin <;> cases sm <;>
      simp [handlePostQuery, handlerBody, runDefers, handlerReleaseDefer]
  · intro hn0
    simp only at hn0
    cases hfin <;> cases sm <;>
      simp [handlePostQuery, handlerBody, runDefers, handlerReleaseDefer, hn0]

/-- Witness for C8: one call with zero bytes written (error response
written, nothing logged) and one with five bytes written (only logged, no
error response). -/
theorem handler_encode_error_paths_witness :
    (HAction.encodeErrorResponse ∈
        (handlePostQuery ⟨none, .ok ⟨0, 7, none⟩, 0, some ⟨.invalid, "bad encode"⟩,
          false, none⟩).events ∧
      HAction.logEncodeFailure ∉
        (handlePostQuery ⟨none, .ok ⟨0, 7, none⟩, 0, some ⟨.invalid, "bad encode"⟩,
          false, none⟩).events) ∧
    (HAction.logEncodeFailure ∈
        (handlePostQuery ⟨none, .ok ⟨0, 7, none⟩, 5, some ⟨.invalid, "bad encode"⟩,
          false, none⟩).events ∧
      HAction.encodeErrorResponse ∉
        (handlePostQuery ⟨none, .ok ⟨0, 7, none⟩, 5, some ⟨.invalid, "bad encode"⟩,
          false, none⟩).events) :=
  ⟨(handler_encode_error_paths
      ⟨none, .ok ⟨0, 7, none⟩, 0, some ⟨.invalid, "bad encode"⟩, false, none⟩
      ⟨0, 7, none⟩ ⟨.invalid, "bad encode"⟩ rfl rfl rfl).1 rfl,
   (handler_encode_error_paths
      ⟨none, .ok ⟨0, 7, none⟩, 5, some ⟨.invalid, "bad encode"⟩, false, none⟩
      ⟨0, 7, none⟩ ⟨.invalid, "bad encode"⟩ rfl rfl rfl).2 (by decide)⟩

end Influx
